import Mathlib

/-
Verification of the visual-anomaly-detection backend (src/app.py).

The embedding models the state and handlers of the Flask application:
  * a JSON-like value type for record fields and response bodies,
  * history records as ordered association lists of string keys to values
    (mirroring Python dicts built by literal construction, where a key may
    be absent when the history file was produced externally),
  * the application state: the history file (absent or holding a list of
    records) and the upload directory (a list of saved path/content pairs),
  * the predict and user_history handlers, with the external collaborators
    (detect_anomaly, werkzeug secure_filename, datetime.now) passed in as
    opaque parameters, exactly as the spec treats them.
-/

namespace VisualAnomaly

/-- A JSON value as it appears in record fields and response bodies:
strings, numbers (Python floats carried through unchanged, modelled as
rationals since the code never computes with them), and booleans. -/
inductive Value where
  | s (v : String)
  | n (v : Rat)
  | b (v : Bool)
  deriving DecidableEq

/-- A history record: an ordered association list of field names to values,
mirroring a Python dict parsed from or serialized to JSON. -/
abbrev HistoryRecord := List (String × Value)

/-- Python dict lookup d[k] / d.get(k): first entry with the given key,
none when the key is absent (where the source would raise KeyError). -/
def dictGet {α : Type} (d : List (String × α)) (k : String) : Option α :=
  match d with
  | [] => none
  | (k0, v) :: rest => if k0 = k then some v else dictGet rest k

/-- An uploaded multipart file: its client-supplied filename and its bytes. -/
structure UploadedFile where
  filename : String
  content : String
  deriving DecidableEq

/-- An HTTP request to the predict route: the method, the multipart files
mapping, the form fields, and Flask request.host_url (the scheme and host
of the request followed by a trailing slash). -/
structure PredictRequest where
  method : String
  files : List (String × UploadedFile)
  form : List (String × String)
  host_url : String

/-- The result dict returned by the external detection adapter
detect_anomaly: a label, a numeric score, and filesystem paths to the two
rendered artifact images. -/
structure DetectResult where
  label : String
  score : Rat
  outline_image : String
  filled_image : String

/-- The external collaborators of the predict handler, opaque to this
layer: werkzeug.utils.secure_filename, detector.detect_anomaly, and the
formatted server timestamp taken at handling time. -/
structure PredictContext where
  secure : String → String
  detect : String → DetectResult
  timestamp : String

/-- Application state: the history file (none when history.json does not
exist on disk, some records when it holds a JSON array), and the upload
directory as a list of saved path/content pairs (latest save first). -/
structure AppState where
  historyFile : Option (List HistoryRecord)
  uploads : List (String × String)

/-- load_history: return [] when the history file does not exist,
otherwise the parsed list of records. -/
def load_history (st : AppState) : List HistoryRecord :=
  match st.historyFile with
  | none => []
  | some h => h

/-- save_history: rewrite the whole history file with the given list. -/
def save_history (st : AppState) (h : List HistoryRecord) : AppState :=
  { st with historyFile := some h }

/-- Python str.rstrip applied with the single character slash, as in
request.host_url.rstrip applied in the handler. -/
def rstripSlash (s : String) : String :=
  s.dropRightWhile (fun c => c = '/')

/-- os.path.basename on POSIX: everything after the last slash. -/
def basename (p : String) : String :=
  ((p.splitOn "/").getLast?).getD ""

/-- os.path.join for two components on POSIX: an absolute second component
replaces the first, otherwise they are joined with a single slash. -/
def os_path_join (a b : String) : String :=
  if b.startsWith "/" then b
  else if a = "" ∨ a.endsWith "/" then a ++ b
  else a ++ "/" ++ b

/-- The upload folder constant of the application. -/
def UPLOAD_FOLDER : String := "uploads"

/-- The HistoryRecord dict literal appended by the predict handler, with
the seven fields in source order. -/
def mkRecord (ctx : PredictContext) (req : PredictRequest)
    (username : String) (filename : String) : HistoryRecord :=
  let result := ctx.detect (os_path_join UPLOAD_FOLDER filename)
  let base := rstripSlash req.host_url
  [("username", Value.s username),
   ("image", Value.s (base ++ "/uploads/" ++ filename)),
   ("result", Value.s result.label),
   ("score", Value.n result.score),
   ("time", Value.s ctx.timestamp),
   ("outline_image", Value.s (base ++ "/results/" ++ basename result.outline_image)),
   ("filled_image", Value.s (base ++ "/results/" ++ basename result.filled_image))]

/-- An HTTP response from the predict handler: status code and JSON body
as an ordered key/value list. -/
structure PredictOutcome where
  status : Nat
  body : List (String × Value)
  deriving DecidableEq

/-- The predict handler (src/app.py lines 74-119): answer OPTIONS
pre-flight; reject a missing image field and an empty filename with 400;
otherwise save the upload, run the adapter, append one record to the
history file and respond with the label, score and artifact URLs. -/
def predict (ctx : PredictContext) (req : PredictRequest) (st : AppState) :
    PredictOutcome × AppState :=
  if req.method = "OPTIONS" then
    ({ status := 200, body := [("ok", Value.b true)] }, st)
  else
    match dictGet req.files "image" with
    | none => ({ status := 400, body := [("error", Value.s "No image provided")] }, st)
    | some file =>
      let username := (dictGet req.form "username").getD "unknown"
      if file.filename = "" then
        ({ status := 400, body := [("error", Value.s "Empty filename")] }, st)
      else
        let filename := ctx.secure file.filename
        let image_path := os_path_join UPLOAD_FOLDER filename
        let st1 : AppState := { st with uploads := (image_path, file.content) :: st.uploads }
        let result := ctx.detect image_path
        let base := rstripSlash req.host_url
        let history := load_history st1
        let record := mkRecord ctx req username filename
        let st2 := save_history st1 (history ++ [record])
        ({ status := 200,
           body := [("result", Value.s result.label),
                    ("anomaly_score", Value.n result.score),
                    ("outline_image",
                      Value.s (base ++ "/results/" ++ basename result.outline_image)),
                    ("filled_image",
                      Value.s (base ++ "/results/" ++ basename result.filled_image))] },
         st2)

/-- Whether a record matches the queried username: the source compares
h with the username string using Python equality, which is true exactly
when the field is the equal string (a numeric field value compares
unequal to a string without raising). -/
def matchesUser (username : String) (h : HistoryRecord) : Bool :=
  decide (dictGet h "username" = some (Value.s username))

/-- The list comprehension of the user_history handler: none models the
KeyError raised when a record lacks the username field; otherwise the
sublist of records whose username field equals the input. -/
def filterByUsername (username : String) : List HistoryRecord → Option (List HistoryRecord)
  | [] => some []
  | h :: rest =>
    match dictGet h "username" with
    | none => none
    | some v =>
      match filterByUsername username rest with
      | none => none
      | some tl => some (if v = Value.s username then h :: tl else tl)

/-- The user_history handler (src/app.py lines 134-137): load the full
history and return the records whose username field equals the path
segment; none models the unhandled KeyError on a record lacking the
field. The handler reads state only, so it takes no state to return. -/
def user_history (username : String) (st : AppState) : Option (List HistoryRecord) :=
  filterByUsername username (load_history st)

/-- When every record carries a username field, the comprehension succeeds
and is exactly an order-preserving filter of the loaded list. -/
theorem filterByUsername_eq (username : String) (l : List HistoryRecord)
    (hall : ∀ h ∈ l, (dictGet h "username").isSome) :
    filterByUsername username l = some (l.filter (matchesUser username)) := by
  induction l with
  | nil => rfl
  | cons h rest ih =>
    obtain ⟨v, hv⟩ := Option.isSome_iff_exists.mp (hall h (List.mem_cons_self h rest))
    have hrest := ih (fun x hx => hall x (List.mem_cons_of_mem h hx))
    by_cases hc : v = Value.s username
    · simp [filterByUsername, hv, hrest, List.filter_cons, matchesUser, hc]
    · simp [filterByUsername, hv, hrest, List.filter_cons, matchesUser, hc]

/-- The comprehension succeeds exactly when every record in the list
carries a username field. -/
theorem filterByUsername_isSome_iff (username : String) (l : List HistoryRecord) :
    (filterByUsername username l).isSome ↔ ∀ h ∈ l, (dictGet h "username").isSome := by
  induction l with
  | nil => simp [filterByUsername]
  | cons h rest ih =>
    cases hv : dictGet h "username" with
    | none => simp [filterByUsername, hv]
    | some v =>
      cases hr : filterByUsername username rest with
      | none =>
        have hnall : ¬ ∀ x ∈ rest, (dictGet x "username").isSome := fun hc => by
          have := ih.mpr hc
          simp [hr] at this
        push_neg at hnall
        obtain ⟨x, hx, hxn⟩ := hnall
        simp [filterByUsername, hv, hr]
        exact ⟨x, hx, Option.not_isSome_iff_eq_none.mp hxn⟩
      | some tl =>
        have hsome : ∀ x ∈ rest, (dictGet x "username").isSome := by
          apply ih.mp
          simp [hr]
        simp [filterByUsername, hv, hr]
        intro x hx
        exact hsome x hx

/-
Concrete inputs used by the witness theorems, following the worked example
of the spec: user alice uploads cat.png, the adapter labels it anomaly
with score 0.87 and artifact paths under /tmp.
-/

/-- A concrete uploaded file. -/
def fileW : UploadedFile := { filename := "cat.png", content := "PNGBYTES" }

/-- A concrete handler context: identity filename sanitizer, constant
adapter, fixed timestamp. -/
def ctxW : PredictContext :=
  { secure := fun s => s,
    detect := fun _ =>
      { label := "anomaly", score := (87 : Rat) / 100,
        outline_image := "/tmp/out_cat.png", filled_image := "/tmp/fill_cat.png" },
    timestamp := "2026-01-01 12:00:00" }

/-- A concrete valid POST request with form username alice. -/
def reqW : PredictRequest :=
  { method := "POST",
    files := [("image", fileW)],
    form := [("username", "alice")],
    host_url := "http://localhost:5000/" }

/-- A concrete POST request with no image file field. -/
def reqNoImage : PredictRequest :=
  { method := "POST", files := [], form := [("username", "alice")],
    host_url := "http://localhost:5000/" }

/-- A concrete POST request whose image file has an empty filename. -/
def reqEmptyName : PredictRequest :=
  { method := "POST",
    files := [("image", { filename := "", content := "PNGBYTES" })],
    form := [("username", "alice")],
    host_url := "http://localhost:5000/" }

/-- A concrete OPTIONS pre-flight request. -/
def reqOptions : PredictRequest :=
  { method := "OPTIONS", files := [], form := [],
    host_url := "http://localhost:5000/" }

/-- A fresh-deployment state: no history file, empty upload directory. -/
def stW : AppState := { historyFile := none, uploads := [] }

/-- A state whose history file holds three well-formed records, two of
them for alice. -/
def stH : AppState :=
  { historyFile := some
      [[("username", Value.s "alice"), ("result", Value.s "normal")],
       [("username", Value.s "bob"), ("result", Value.s "anomaly")],
       [("username", Value.s "alice"), ("result", Value.s "anomaly")]],
    uploads := [] }

/-- C5: a POST /predict whose multipart files lack an image field returns
status 400 with body error No image provided, and leaves the application
state (history file and upload directory) unchanged. -/
theorem predict_missing_image (ctx : PredictContext) (req : PredictRequest)
    (st : AppState) (hm : req.method = "POST")
    (hf : dictGet req.files "image" = none) :
    (predict ctx req st).1 =
      { status := 400, body := [("error", Value.s "No image provided")] } ∧
    (predict ctx req st).2 = st := by
  constructor <;> simp [predict, hm, hf]

/-- Witness for C5 at the concrete request with no image field. -/
theorem predict_missing_image_witness :
    (predict ctxW reqNoImage stH).1 =
      { status := 400, body := [("error", Value.s "No image provided")] } ∧
    (predict ctxW reqNoImage stH).2 = stH :=
  predict_missing_image ctxW reqNoImage stH rfl rfl

/-- C6: a POST /predict whose image file has an empty filename returns
status 400 with body error Empty filename, and leaves the application
state (history file and upload directory) unchanged. -/
theorem predict_empty_filename (ctx : PredictContext) (req : PredictRequest)
    (st : AppState) (file : UploadedFile) (hm : req.method = "POST")
    (hf : dictGet req.files "image" = some file)
    (hn : file.filename = "") :
    (predict ctx req st).1 =
      { status := 400, body := [("error", Value.s "Empty filename")] } ∧
    (predict ctx req st).2 = st := by
  constructor <;> simp [predict, hm, hf, hn]

/-- Witness for C6 at the concrete request whose file has an empty
filename. -/
theorem predict_empty_filename_witness :
    (predict ctxW reqEmptyName stH).1 =
      { status := 400, body := [("error", Value.s "Empty filename")] } ∧
    (predict ctxW reqEmptyName stH).2 = stH :=
  predict_empty_filename ctxW reqEmptyName stH
    { filename := "", content := "PNGBYTES" } rfl rfl rfl

/-- C8: an OPTIONS request to /predict returns status 200 with body
ok true and changes nothing: the state, history file included, is returned
untouched, for every files mapping, form, adapter and state, so no
validation, save or adapter result can influence the outcome. -/
theorem predict_options_preflight (ctx : PredictContext) (req : PredictRequest)
    (st : AppState) (hm : req.method = "OPTIONS") :
    (predict ctx req st).1 = { status := 200, body := [("ok", Value.b true)] } ∧
    (predict ctx req st).2 = st := by
  constructor <;> simp [predict, hm]

/-- Witness for C8 at the concrete OPTIONS request. -/
theorem predict_options_preflight_witness :
    (predict ctxW reqOptions stH).1 =
      { status := 200, body := [("ok", Value.b true)] } ∧
    (predict ctxW reqOptions stH).2 = stH :=
  predict_options_preflight ctxW reqOptions stH rfl

/-- C7: every predict call, on every starting state, leaves the loaded
history an extension of the previous one: each prior record is still
present, unmodified, at its original position, and whatever is new comes
after it. The only other handler touching the store, user_history, takes
no state to return by its very type. -/
theorem history_append_only (ctx : PredictContext) (req : PredictRequest)
    (st : AppState) :
    ∃ t : List HistoryRecord,
      load_history (predict ctx req st).2 = load_history st ++ t := by
  by_cases hm : req.method = "OPTIONS"
  · exact ⟨[], by simp [predict, hm]⟩
  · cases hf : dictGet req.files "image" with
    | none => exact ⟨[], by simp [predict, hm, hf]⟩
    | some file =>
      by_cases hn : file.filename = ""
      · exact ⟨[], by simp [predict, hm, hf, hn]⟩
      · refine ⟨[mkRecord ctx req ((dictGet req.form "username").getD "unknown")
          (ctx.secure file.filename)], ?_⟩
        simp [predict, hm, hf, hn, save_history, load_history]

/-- C10: user_history succeeds (never raises) exactly when every loaded
record carries a username field; when some record lacks it, the handler
raises a KeyError (modelled as none) for every queried username. -/
theorem user_history_total_iff (u : String) (st : AppState) :
    (user_history u st).isSome ↔
      ∀ h ∈ load_history st, (dictGet h "username").isSome :=
  filterByUsername_isSome_iff u (load_history st)

/-- The record built by the predict handler always carries its username
as its first field. -/
theorem dictGet_mkRecord_username (ctx : PredictContext) (req : PredictRequest)
    (username : String) (filename : String) :
    dictGet (mkRecord ctx req username filename) "username" =
      some (Value.s username) := rfl

/-- C1: every POST /predict that passes validation appends exactly one
record to the history store, and that record's username field is the
submitted form value, or unknown when the form field is omitted. -/
theorem predict_appends_one_record (ctx : PredictContext) (req : PredictRequest)
    (st : AppState) (file : UploadedFile)
    (hm : req.method = "POST")
    (hf : dictGet req.files "image" = some file)
    (hn : file.filename ≠ "") :
    ∃ r : HistoryRecord,
      load_history (predict ctx req st).2 = load_history st ++ [r] ∧
      dictGet r "username" =
        some (Value.s ((dictGet req.form "username").getD "unknown")) := by
  refine ⟨mkRecord ctx req ((dictGet req.form "username").getD "unknown")
    (ctx.secure file.filename), ?_, dictGet_mkRecord_username ..⟩
  simp [predict, hm, hf, hn, save_history, load_history]

/-- Witness for C1 at the concrete valid request of user alice. -/
theorem predict_appends_one_record_witness :
    ∃ r : HistoryRecord,
      load_history (predict ctxW reqW stH).2 = load_history stH ++ [r] ∧
      dictGet r "username" =
        some (Value.s ((dictGet reqW.form "username").getD "unknown")) :=
  predict_appends_one_record ctxW reqW stH fileW rfl rfl (by decide)

/-- C2: for a history store of well-formed records (each carrying a
username field, as the data model prescribes), /history/u returns exactly
the records whose username field equals u under case-sensitive string
equality, in insertion order, and the empty array when none matches. -/
theorem user_history_exact_filter (u : String) (st : AppState)
    (hall : ∀ h ∈ load_history st, (dictGet h "username").isSome) :
    user_history u st = some ((load_history st).filter (matchesUser u)) ∧
    ((∀ h ∈ load_history st, dictGet h "username" ≠ some (Value.s u)) →
      user_history u st = some []) := by
  have h1 := filterByUsername_eq u (load_history st) hall
  refine ⟨h1, fun hne => ?_⟩
  show filterByUsername u (load_history st) = some []
  rw [h1]
  have hempty : (load_history st).filter (matchesUser u) = [] := by
    rw [List.filter_eq_nil_iff]
    intro a ha
    simp [matchesUser, hne a ha]
  rw [hempty]

/-- Witness for C2 at the concrete three-record store: alice is answered
with her matching records, and the unmatched clause applies to carol. -/
theorem user_history_exact_filter_witness :
    user_history "alice" stH =
      some ((load_history stH).filter (matchesUser "alice")) ∧
    ((∀ h ∈ load_history stH, dictGet h "username" ≠ some (Value.s "alice")) →
      user_history "alice" stH = some []) :=
  user_history_exact_filter "alice" stH (by decide)

/-- C3: a record appended by a successful POST /predict with form
username u is the last element, verbatim (the very record with its seven
fields), of the list returned by an immediately following /history/u. -/
theorem predict_history_roundtrip (ctx : PredictContext) (req : PredictRequest)
    (st : AppState) (file : UploadedFile) (u : String)
    (hm : req.method = "POST")
    (hf : dictGet req.files "image" = some file)
    (hn : file.filename ≠ "")
    (hu : dictGet req.form "username" = some u)
    (hall : ∀ h ∈ load_history st, (dictGet h "username").isSome) :
    ∃ l : List HistoryRecord,
      user_history u (predict ctx req st).2 = some l ∧
      l.getLast? = some (mkRecord ctx req u (ctx.secure file.filename)) := by
  have hnew : load_history (predict ctx req st).2 =
      load_history st ++ [mkRecord ctx req u (ctx.secure file.filename)] := by
    simp [predict, hm, hf, hn, hu, save_history, load_history]
  have hall2 : ∀ h ∈ load_history st ++
      [mkRecord ctx req u (ctx.secure file.filename)],
      (dictGet h "username").isSome := by
    intro h hmem
    rcases List.mem_append.mp hmem with hmem | hmem
    · exact hall h hmem
    · rw [List.mem_singleton.mp hmem, dictGet_mkRecord_username]
      rfl
  refine ⟨(load_history st).filter (matchesUser u) ++
    [mkRecord ctx req u (ctx.secure file.filename)], ?_, List.getLast?_concat _⟩
  show filterByUsername u (load_history (predict ctx req st).2) = _
  rw [hnew, filterByUsername_eq u _ hall2, List.filter_append]
  have hlast : [mkRecord ctx req u (ctx.secure file.filename)].filter
      (matchesUser u) = [mkRecord ctx req u (ctx.secure file.filename)] := by
    simp [List.filter, matchesUser, dictGet_mkRecord_username]
  rw [hlast]

/-- Witness for C3 at the concrete valid request of user alice over the
concrete three-record store. -/
theorem predict_history_roundtrip_witness :
    ∃ l : List HistoryRecord,
      user_history "alice" (predict ctxW reqW stH).2 = some l ∧
      l.getLast? = some (mkRecord ctxW reqW "alice" (ctxW.secure fileW.filename)) :=
  predict_history_roundtrip ctxW reqW stH fileW "alice" rfl rfl (by decide) rfl
    (by decide)

/-- C4: the successful predict response is status 200 with exactly the
four keys result, anomaly_score, outline_image and filled_image (no
username, time or original image URL), carrying the adapter label and
score unchanged, and artifact URLs built from the request scheme-and-host
followed by the results route and the basename of each adapter path. -/
theorem predict_response_fields (ctx : PredictContext) (req : PredictRequest)
    (st : AppState) (file : UploadedFile)
    (hm : req.method = "POST")
    (hf : dictGet req.files "image" = some file)
    (hn : file.filename ≠ "") :
    (predict ctx req st).1 =
      { status := 200,
        body :=
          [("result", Value.s
              (ctx.detect (os_path_join UPLOAD_FOLDER (ctx.secure file.filename))).label),
           ("anomaly_score", Value.n
              (ctx.detect (os_path_join UPLOAD_FOLDER (ctx.secure file.filename))).score),
           ("outline_image", Value.s (rstripSlash req.host_url ++ "/results/" ++
              basename (ctx.detect
                (os_path_join UPLOAD_FOLDER (ctx.secure file.filename))).outline_image)),
           ("filled_image", Value.s (rstripSlash req.host_url ++ "/results/" ++
              basename (ctx.detect
                (os_path_join UPLOAD_FOLDER (ctx.secure file.filename))).filled_image))] } := by
  simp [predict, hm, hf, hn]

/-- Witness for C4 at the concrete valid request of user alice. -/
theorem predict_response_fields_witness :
    (predict ctxW reqW stH).1 =
      { status := 200,
        body :=
          [("result", Value.s
              (ctxW.detect (os_path_join UPLOAD_FOLDER (ctxW.secure fileW.filename))).label),
           ("anomaly_score", Value.n
              (ctxW.detect (os_path_join UPLOAD_FOLDER (ctxW.secure fileW.filename))).score),
           ("outline_image", Value.s (rstripSlash reqW.host_url ++ "/results/" ++
              basename (ctxW.detect
                (os_path_join UPLOAD_FOLDER (ctxW.secure fileW.filename))).outline_image)),
           ("filled_image", Value.s (rstripSlash reqW.host_url ++ "/results/" ++
              basename (ctxW.detect
                (os_path_join UPLOAD_FOLDER (ctxW.secure fileW.filename))).filled_image))] } :=
  predict_response_fields ctxW reqW stH fileW rfl rfl (by decide)

/-- C9: when the history file does not exist, load_history returns the
empty list rather than failing, /history/u answers the empty array for
every u, and a first successful POST /predict leaves the file holding
exactly one record. -/
theorem fresh_history_behavior (ctx : PredictContext) (req : PredictRequest)
    (up : List (String × String)) (u : String) (file : UploadedFile)
    (hm : req.method = "POST")
    (hf : dictGet req.files "image" = some file)
    (hn : file.filename ≠ "") :
    load_history { historyFile := none, uploads := up } = [] ∧
    user_history u { historyFile := none, uploads := up } = some [] ∧
    ∃ r : HistoryRecord,
      (predict ctx req { historyFile := none, uploads := up }).2.historyFile =
        some [r] := by
  refine ⟨rfl, rfl, mkRecord ctx req ((dictGet req.form "username").getD "unknown")
    (ctx.secure file.filename), ?_⟩
  simp [predict, hm, hf, hn, save_history, load_history]

/-- Witness for C9 at the concrete valid request of user alice on a fresh
deployment. -/
theorem fresh_history_behavior_witness :
    load_history { historyFile := none, uploads := [] } = [] ∧
    user_history "alice" { historyFile := none, uploads := [] } = some [] ∧
    ∃ r : HistoryRecord,
      (predict ctxW reqW { historyFile := none, uploads := [] }).2.historyFile =
        some [r] :=
  fresh_history_behavior ctxW reqW [] "alice" fileW rfl rfl (by decide)

end VisualAnomaly
